import Mathlib

/-!
# Verification of the tidb-operator failure-detection / failover / upgrade core

This file gives a shallow embedding of two parts of the repository:

* `TiFlash`: the TiFlash rolling-upgrade stepper, translated from the
  `tiflashUpgrader.Upgrade` method and its helpers
  (`getTiFlashStoreByOrdinal`, the version gate built on
  `tiflashVersionsNeedCheckStatus` and the `>=v5.1.2-0` semver constraint).
  Kubernetes collaborators (pod lister, TiFlash status client) are passed in
  as explicit lookup functions; in-place mutation of the `TidbCluster` status
  and the new StatefulSet is made explicit by returning the updated values.

* `PD`: the PD failure detection, member reaping and recovery logic.  The
  deciding source file is not part of the source tree (only its test file
  is), so these definitions are modelled from the specification text, as
  marked on each doc comment.
-/

namespace TiFlash

/-- Phase of a component status (`v1alpha1.MemberPhase`): we only need the
Normal / Upgrade / Scale distinction used by the upgrader. -/
inductive MemberPhase
  | Normal
  | Upgrade
  | Scale
  deriving DecidableEq

/-- State of a TiKV/TiFlash store (`v1alpha1.TiKVState...`); the upgrader only
tests for `Up`. -/
inductive TiKVState
  | Up
  | Down
  | Offline
  | Tombstone
  deriving DecidableEq

/-- A store record from `tc.Status.TiFlash.Stores` (`v1alpha1.TiKVStore`):
only the pod name and the operational state are read by the upgrader. -/
structure TiKVStore where
  podName : String
  state : TiKVState
  deriving DecidableEq

/-- The fields of a `TidbCluster` read or written by `tiflashUpgrader.Upgrade`:
`tc.Status.PD.Phase`, `tc.Status.TiFlash.{Phase, Synced, StatefulSet.UpdateRevision,
StatefulSet.CurrentRevision, Stores}`, `tc.TiFlashVersion()` and the cluster name. -/
structure TidbCluster where
  name : String
  pdPhase : MemberPhase
  tiflashPhase : MemberPhase
  tiflashSynced : Bool
  updateRevision : String
  currentRevision : String
  stores : List TiKVStore
  tiflashVersion : String
  deriving DecidableEq

/-- `tc.TiFlashScaling()`: the TiFlash component is scaling when its phase is
the scale phase. -/
def TiFlashScaling (tc : TidbCluster) : Bool :=
  tc.tiflashPhase = MemberPhase.Scale

/-- The fields of an `apps.StatefulSet` read or written by the upgrader:
`Spec.Replicas`, `Spec.Template.Spec` (opaque payload), the update strategy
(`OnDelete` or rolling with a partition), and the last-applied-config
annotation payload read by `GetLastAppliedConfig` (`none` when that
annotation is absent or unparsable, which makes `GetLastAppliedConfig`
return an error). -/
structure StatefulSet where
  replicas : Nat
  template : String
  strategyOnDelete : Bool
  rollingUpdate : Option Nat
  lastApplied : Option String
  deriving DecidableEq

/-- The pod fields read during the scan: the controller-revision-hash label
(absent ↦ `none`) and readiness (`podutil.IsPodReady`). -/
structure TiFlashPod where
  revisionLabel : Option String
  ready : Bool
  deriving DecidableEq

/-- Result of `GetStoreStatus` on the TiFlash pod client (`tiflashapi`):
the upgrader only distinguishes `Running` from everything else. -/
inductive StoreStatus
  | Running
  | NotRunning
  deriving DecidableEq

/-- The errors `Upgrade` can return (both plain errors and requeue errors). -/
inductive UpgradeErr
  | getLastAppliedConfigFailed
  | notSynced
  | podGetFailed (podName : String)
  | noRevisionLabel (podName : String)
  | podNotReady (podName : String)
  | storeStateNotUp (podName : String)
  | getStoreStatusFailed (podName : String)
  | storeStatusNotRunning (podName : String)
  deriving DecidableEq

/-- `TiFlashPodName(tcName, ordinal)`: derived pod name of the TiFlash member
at a given ordinal. -/
def TiFlashPodName (tcName : String) (ordinal : Nat) : String :=
  tcName ++ "-tiflash-" ++ toString ordinal

/-- `getTiFlashStoreByOrdinal`: find the store record whose pod name matches
the derived pod name of the ordinal. -/
def getTiFlashStoreByOrdinal (name : String) (stores : List TiKVStore) (ordinal : Nat) :
    Option TiKVStore :=
  stores.find? (fun s => s.podName = TiFlashPodName name ordinal)

/-- `setUpgradePartition`: sets the rolling-update partition of the new
StatefulSet to the given ordinal. -/
def setUpgradePartition (set : StatefulSet) (upgradeOrdinal : Nat) : StatefulSet :=
  { set with rollingUpdate := some upgradeOrdinal }

/-- `templateEqual`: whether the pod template specs of the two StatefulSets
are equal. -/
def templateEqual (new old : StatefulSet) : Bool :=
  new.template = old.template

/-- `tiflashVersionsNeedCheckStatus`: the fixed floating-tag allow-list for
which the store-status liveness gate always engages. -/
def tiflashVersionsNeedCheckStatus : List String :=
  ["lastest", "nightly"]

/-- Parse the decimal digits of a nonempty all-digit character list. -/
def parseNatDigits (cs : List Char) : Option Nat :=
  if cs.isEmpty || !cs.all Char.isDigit then none
  else some (cs.foldl (fun a c => 10 * a + (c.toNat - 48)) 0)

/-- Split a character list at every occurrence of the separator. -/
def splitOnChar (sep : Char) : List Char → List (List Char)
  | [] => [[]]
  | c :: rest =>
    match splitOnChar sep rest with
    | [] => [[]]
    | h :: t => if c = sep then [] :: h :: t else (c :: h) :: t

/-- The prefix of a character list up to (excluding) the first stop
character. -/
def takeUntil (stops : List Char) : List Char → List Char
  | [] => []
  | c :: rest => if stops.contains c then [] else c :: takeUntil stops rest

/-- Loose semantic-version parse in the style of `semver.NewVersion`: an
optional leading `v`, one to three dot-separated numeric components,
pre-release (after `-`) and build metadata (after `+`) stripped.  Returns
(major, minor, patch); unparsable tags give `none`. -/
def parseSemver (s : String) : Option (Nat × Nat × Nat) :=
  let cs := match s.data with
    | 'v' :: rest => rest
    | cs => cs
  let core := takeUntil ['-', '+'] cs
  match (splitOnChar '.' core).map parseNatDigits with
  | [some x] => some (x, 0, 0)
  | [some x, some y] => some (x, y, 0)
  | [some x, some y, some z] => some (x, y, z)
  | _ => none

/-- The `>=v5.1.2-0` constraint (`tiflashEqualOrGreaterThanV512`): since
`-0` is the least pre-release, the constraint holds exactly when the core
version is lexicographically at least (5, 1, 2). -/
def semverAtLeast512 (v : Nat × Nat × Nat) : Bool :=
  5 < v.1 || (v.1 = 5 && (1 < v.2.1 || (v.2.1 = 1 && 2 ≤ v.2.2)))

/-- Whether the extra store-status liveness gate engages for a TiFlash
version tag: it matches the floating-tag allow-list, or its parsed semantic
version satisfies the `>=v5.1.2-0` constraint (a failed parse skips the
check). -/
def needCheckStatus (version : String) : Bool :=
  tiflashVersionsNeedCheckStatus.contains version ||
    (match parseSemver version with
     | some v => semverAtLeast512 v
     | none => false)

/-- The descending scan over pod ordinals in `tiflashUpgrader.Upgrade`
(lines 90–138 of the source): the list argument is the ordinals in the order
scanned (highest first).  `podLister` is `deps.PodLister` (`none` = lookup
error), `client` is the TiFlash store-status client (`none` = call error).
Returns the new StatefulSet (with any partition updates) and an error. -/
def upgradeScan (podLister : String → Option TiFlashPod) (client : String → Option StoreStatus)
    (tc : TidbCluster) : List Nat → StatefulSet → StatefulSet × Option UpgradeErr
  | [], s => (s, none)
  | i :: rest, s =>
    match getTiFlashStoreByOrdinal tc.name tc.stores i with
    | none => upgradeScan podLister client tc rest (setUpgradePartition s i)
    | some store =>
      let podName := TiFlashPodName tc.name i
      match podLister podName with
      | none => (s, some (UpgradeErr.podGetFailed podName))
      | some pod =>
        match pod.revisionLabel with
        | none => (s, some (UpgradeErr.noRevisionLabel podName))
        | some revision =>
          if revision = tc.updateRevision then
            if pod.ready = false then (s, some (UpgradeErr.podNotReady podName))
            else if store.state ≠ TiKVState.Up then (s, some (UpgradeErr.storeStateNotUp podName))
            else if needCheckStatus tc.tiflashVersion then
              match client podName with
              | none => (s, some (UpgradeErr.getStoreStatusFailed podName))
              | some status =>
                if status ≠ StoreStatus.Running then
                  (s, some (UpgradeErr.storeStatusNotRunning podName))
                else upgradeScan podLister client tc rest s
            else upgradeScan podLister client tc rest s
          else (setUpgradePartition s i, none)

/-- Result of `Upgrade`: the (possibly mutated) cluster status, the
(possibly mutated) new StatefulSet, and the returned error. -/
structure UpgradeResult where
  tc : TidbCluster
  newSet : StatefulSet
  err : Option UpgradeErr
  deriving DecidableEq

/-- `tiflashUpgrader.Upgrade`, with the in-place mutations of `tc` and
`newSet` made explicit in the result.  The scanned ordinals are
`helper.GetPodOrdinals(*oldSet.Spec.Replicas, oldSet)` in the default
(no delete-slots) shape, i.e. `0 .. replicas-1`, iterated highest first. -/
def Upgrade (podLister : String → Option TiFlashPod) (client : String → Option StoreStatus)
    (tc : TidbCluster) (oldSet newSet : StatefulSet) : UpgradeResult :=
  if tc.pdPhase = MemberPhase.Upgrade ∨ TiFlashScaling tc = true then
    match oldSet.lastApplied with
    | none => ⟨tc, newSet, some UpgradeErr.getLastAppliedConfigFailed⟩
    | some podSpec => ⟨tc, { newSet with template := podSpec }, none⟩
  else if tc.tiflashSynced = false then
    ⟨tc, newSet, some UpgradeErr.notSynced⟩
  else
    let tc2 := { tc with tiflashPhase := MemberPhase.Upgrade }
    if templateEqual newSet oldSet = false then ⟨tc2, newSet, none⟩
    else if tc2.updateRevision = tc2.currentRevision then ⟨tc2, newSet, none⟩
    else if oldSet.strategyOnDelete = true ∨ oldSet.rollingUpdate = none then
      ⟨tc2, { newSet with
                strategyOnDelete := oldSet.strategyOnDelete
                rollingUpdate := oldSet.rollingUpdate }, none⟩
    else
      let s0 := setUpgradePartition newSet (oldSet.rollingUpdate.getD 0)
      let scanned := upgradeScan podLister client tc2 (List.range oldSet.replicas).reverse s0
      ⟨tc2, scanned.1, scanned.2⟩

end TiFlash

namespace PD

/-- Modelled from the spec: the PD failover source file is not in the source
tree (only its test file is).  A `Member` from §3: identity (name, numeric id
stored as text), health flag, last-health-transition timestamp.  Timestamps
are naturals; the zero value is the "unset" zero timestamp. -/
structure PDMember where
  name : String
  id : String
  health : Bool
  lastTransitionTime : Nat
  deriving DecidableEq

/-- Modelled from the spec (§3): a `FailureMember` record — pod name, member
id stored as free text, the storage-claim identity set recorded at mark
time, the monotonic deleted flag, and the creation timestamp. -/
structure PDFailureMember where
  podName : String
  memberID : String
  pvcUIDSet : List String
  memberDeleted : Bool
  createdAt : Nat
  deriving DecidableEq

/-- Modelled from the spec (§3): the PD part of the cluster status — synced
flag, members, peer members, failure members (the mappings keyed by pod name
are association lists here). -/
structure PDStatus where
  synced : Bool
  members : List PDMember
  peerMembers : List PDMember
  failureMembers : List PDFailureMember
  deriving DecidableEq

/-- Modelled from the spec: the cluster object as far as failover/recovery
reads it — the desired PD replica count and the PD status. -/
structure TidbCluster where
  replicas : Nat
  status : PDStatus
  deriving DecidableEq

/-- Modelled from the spec (§4.3, §9): pure configuration threaded into the
decision functions — the current wall-clock time, the unhealthy deadline and
the failure cap. -/
structure FailoverConfig where
  now : Nat
  deadline : Nat
  maxFailoverCount : Nat
  deriving DecidableEq

/-- Events emitted by a failover pass: diagnostic unhealthy events for
members and peer members, and the marked-for-removal event. -/
inductive FEvent
  | memberUnhealthy (name id : String)
  | peerMemberUnhealthy (name id : String)
  | markedFailure (name : String)
  deriving DecidableEq

/-- The hard error of a failover pass (§7): status not synced. -/
inductive FailoverErr
  | notSynced
  deriving DecidableEq

/-- Modelled from the spec (§4.2): the full voting set is
dedup(Member ∪ PeerMember) by id, keeping the first occurrence. -/
def votingSet (st : PDStatus) : List PDMember :=
  (st.members ++ st.peerMembers).foldl
    (fun acc m => if acc.any (fun n => n.id = m.id) then acc else acc ++ [m]) []

/-- Modelled from the spec (§4.2): the number of healthy voters excluding
the candidate. -/
def healthyVotersExcluding (st : PDStatus) (candidateId : String) : Nat :=
  ((votingSet st).filter (fun m => m.health && !(m.id = candidateId : Bool))).length

/-- Modelled from the spec (§4.2): the number of voters. -/
def totalVoters (st : PDStatus) : Nat :=
  (votingSet st).length

/-- Modelled from the spec (§4.2): QuorumGuard approves removing the
candidate iff twice the healthy voters excluding it exceed the total voter
count (exactly half is rejected). -/
def quorumGuardApproves (st : PDStatus) (candidateId : String) : Bool :=
  totalVoters st < 2 * healthyVotersExcluding st candidateId

/-- Modelled from the spec (§4.1, §4.3): a member is past the unhealthy
deadline when `now - since > deadline`, where a zero-value transition
timestamp counts as "just observed" (the clock starts now). -/
def isPastDeadline (cfg : FailoverConfig) (m : PDMember) : Bool :=
  let since := if m.lastTransitionTime = 0 then cfg.now else m.lastTransitionTime
  cfg.deadline < cfg.now - since

/-- Whether the status already holds a failure member for this pod name. -/
def alreadyFailure (st : PDStatus) (podName : String) : Bool :=
  st.failureMembers.any (fun fm => fm.podName = podName)

/-- Modelled from the spec (§4.3 Unhealthy→Failure): a member may be marked
as failed when it is unhealthy, past the deadline, QuorumGuard approves,
the failure-member count is below the cap, and it is not already marked. -/
def eligibleToMark (cfg : FailoverConfig) (st : PDStatus) (m : PDMember) : Bool :=
  !m.health && isPastDeadline cfg m && quorumGuardApproves st m.id &&
    decide (st.failureMembers.length < cfg.maxFailoverCount) && !alreadyFailure st m.name

/-- Modelled from the spec (§4.3 "On entering Failure"): the new failure
record captures the storage-claim identity set currently attached to the
member's pod — the empty set when the pod/claims cannot be located
(`podClaims` returns `none`) — with `deleted = false`. -/
def mkFailureMember (cfg : FailoverConfig) (podClaims : String → Option (List String))
    (m : PDMember) : PDFailureMember :=
  { podName := m.name
    memberID := m.id
    pvcUIDSet := (podClaims m.name).getD []
    memberDeleted := false
    createdAt := cfg.now }

/-- Modelled from the spec (§4.3): one FailureTracker pass — each member is
evaluated independently against the pre-pass status; unhealthy members and
peer members get diagnostic events; eligible members are appended to the
failure-member mapping with a marked-for-removal event. -/
def markFailures (cfg : FailoverConfig) (podClaims : String → Option (List String))
    (st : PDStatus) : PDStatus × List FEvent :=
  let newly := st.members.filter (eligibleToMark cfg st)
  let evs :=
    (st.members.filter (fun m => !m.health)).map (fun m => FEvent.memberUnhealthy m.name m.id)
      ++ (st.peerMembers.filter (fun m => !m.health)).map
          (fun m => FEvent.peerMemberUnhealthy m.name m.id)
      ++ newly.map (fun m => FEvent.markedFailure m.name)
  ({ st with failureMembers := st.failureMembers ++ newly.map (mkFailureMember cfg podClaims) },
    evs)

/-- Modelled from the spec (§4.3, §7): the Failover pass of the failure
tracker.  `synced == false` is the hard error; otherwise the pass marks
eligible members and completes cleanly (quorum rejection, deadline not
reached and the failure cap are deferrals, not errors). -/
def Failover (cfg : FailoverConfig) (podClaims : String → Option (List String))
    (tc : TidbCluster) : TidbCluster × List FEvent × Option FailoverErr :=
  if tc.status.synced = true then
    let r := markFailures cfg podClaims tc.status
    ({ tc with status := r.1 }, r.2, none)
  else (tc, [], some FailoverErr.notSynced)

/-- Modelled from the spec (§4.5): RecoveryReconciler trusts the currently
specified desired replica count verbatim and clears the entire
failure-member mapping unconditionally. -/
def Recover (tc : TidbCluster) : TidbCluster :=
  { tc with status := { tc.status with failureMembers := [] } }

/-- A pod in the pod directory, as the reaper reads it: its name and whether
it is already marked for deletion. -/
structure Pod where
  name : String
  markedForDeletion : Bool
  deriving DecidableEq

/-- A storage claim in the claim directory: its name, identity (uid), the
pod it belongs to, and whether it is already marked for deletion. -/
structure Claim where
  name : String
  uid : String
  podName : String
  markedForDeletion : Bool
  deriving DecidableEq

/-- Modelled from the spec (§5, §6): the external collaborators the reaper
calls, as point-in-time state plus the outcome of each fallible call — the
pod directory, the storage-claim directory, whether the membership
deregistration call succeeds, whether the pod deletion call succeeds, and
the set of claim names whose deletion call fails. -/
structure ReapEnv where
  pods : List Pod
  claims : List Claim
  delMemberOk : Bool
  delPodOk : Bool
  delClaimFails : List String
  deriving DecidableEq

/-- The external mutating calls a reap pass attempts, in order. -/
inductive ReapAction
  | deregisterMember (id : Nat)
  | deletePod (name : String)
  | deleteClaim (name : String)
  deriving DecidableEq

/-- The errors of a reap pass: the hard malformed-id error and the
retryable external-call failures. -/
inductive ReapErr
  | invalidMemberID
  | deregisterFailed
  | deletePodFailed
  | deleteClaimFailed (name : String)
  deriving DecidableEq

/-- Result of a reap pass: the (possibly updated) failure record, the
(possibly updated) external state, the calls attempted, and the error. -/
structure ReapResult where
  fm : PDFailureMember
  env : ReapEnv
  actions : List ReapAction
  err : Option ReapErr
  deriving DecidableEq

/-- Modelled from the spec (§4.3): the stored member id must parse as a
valid non-negative integer (decimal digits only, nonempty) before any
deregistration attempt. -/
def parseNonNegInt (s : String) : Option Nat :=
  if s.data.isEmpty || !s.data.all Char.isDigit then none
  else some (s.data.foldl (fun a c => 10 * a + (c.toNat - 48)) 0)

/-- Modelled from the spec (§4.4 step 4): the claims to delete — claims of
the member's pod whose identity is in the recorded set (or all of them when
the recorded set is empty) and that are not already marked for deletion. -/
def claimsToDelete (env : ReapEnv) (fm : PDFailureMember) : List Claim :=
  (env.claims.filter (fun c => c.podName = fm.podName)).filter
    (fun c => (fm.pvcUIDSet.isEmpty || fm.pvcUIDSet.contains c.uid) && !c.markedForDeletion)

/-- Modelled from the spec (§4.4 step 4): delete the listed claims in order,
aborting on the first deletion error without skipping ahead.  Returns the
updated claim directory state, the attempted deletions, and the error. -/
def deleteClaims (env : ReapEnv) : List Claim → ReapEnv × List ReapAction × Option ReapErr
  | [] => (env, [], none)
  | c :: rest =>
    if env.delClaimFails.contains c.name then
      (env, [ReapAction.deleteClaim c.name], some (ReapErr.deleteClaimFailed c.name))
    else
      let env2 := { env with claims := env.claims.filter (fun d => !(d.name = c.name : Bool)) }
      let r := deleteClaims env2 rest
      (r.1, ReapAction.deleteClaim c.name :: r.2.1, r.2.2)

/-- Modelled from the spec (§4.4 steps 4–5): after the compute pod is gone,
delete the due storage claims; only when all deletions succeed does the
deleted flag flip to true. -/
def reapClaims (env : ReapEnv) (acts : List ReapAction) (fm : PDFailureMember) : ReapResult :=
  let r := deleteClaims env (claimsToDelete env fm)
  match r.2.2 with
  | some e => ⟨fm, r.1, acts ++ r.2.1, some e⟩
  | none => ⟨{ fm with memberDeleted := true }, r.1, acts ++ r.2.1, none⟩

/-- Modelled from the spec (§4.4, §4.3): the ordered, resumable teardown of
a failure member — validate the stored id (hard error on a parse failure,
no call made, no state change), deregister from the cluster membership,
locate the pod (not-found is already-removed; already marked for deletion
skips the delete), delete it otherwise, then delete the due storage claims,
and flip the deleted flag only after every step succeeded. -/
def tryToDeleteAFailureMember (env : ReapEnv) (fm : PDFailureMember) : ReapResult :=
  match parseNonNegInt fm.memberID with
  | none => ⟨fm, env, [], some ReapErr.invalidMemberID⟩
  | some memberId =>
    if env.delMemberOk = false then
      ⟨fm, env, [ReapAction.deregisterMember memberId], some ReapErr.deregisterFailed⟩
    else
      let acts0 := [ReapAction.deregisterMember memberId]
      match env.pods.find? (fun p => p.name = fm.podName) with
      | some pod =>
        if pod.markedForDeletion = true then reapClaims env acts0 fm
        else if env.delPodOk = false then
          ⟨fm, env, acts0 ++ [ReapAction.deletePod fm.podName], some ReapErr.deletePodFailed⟩
        else
          let env2 := { env with pods := env.pods.filter (fun p => !(p.name = fm.podName : Bool)) }
          reapClaims env2 (acts0 ++ [ReapAction.deletePod fm.podName]) fm
      | none => reapClaims env acts0 fm

end PD

namespace TiFlash

/-- All per-ordinal checks of the scan pass for ordinal `i` with the pod on
the target revision: the store record exists and is Up, the pod lookup
succeeds, its revision label equals the target revision, it is ready, and
when the version gate engages the live store status is Running. -/
def passOk (podLister : String → Option TiFlashPod) (client : String → Option StoreStatus)
    (tc : TidbCluster) (i : Nat) : Prop :=
  ∃ store pod,
    getTiFlashStoreByOrdinal tc.name tc.stores i = some store ∧
    store.state = TiKVState.Up ∧
    podLister (TiFlashPodName tc.name i) = some pod ∧
    pod.revisionLabel = some tc.updateRevision ∧
    pod.ready = true ∧
    (needCheckStatus tc.tiflashVersion = true →
      client (TiFlashPodName tc.name i) = some StoreStatus.Running)

/-- An ordinal whose checks all pass on the target revision is skipped by
the scan: the scan continues to the remaining (lower) ordinals with the
StatefulSet unchanged. -/
theorem upgradeScan_pass {podLister client tc i s rest}
    (h : passOk podLister client tc i) :
    upgradeScan podLister client tc (i :: rest) s = upgradeScan podLister client tc rest s := by
  obtain ⟨store, pod, h1, h2, h3, h4, h5, h6⟩ := h
  by_cases hN : needCheckStatus tc.tiflashVersion = true
  · simp only [upgradeScan, h1, h3, h4, h5, h2, hN, h6 hN]
    simp
  · simp only [upgradeScan, h1, h3, h4, h5, h2]
    simp [hN]

/-- A scan over ordinals that all pass on the target revision returns the
StatefulSet unchanged and no error. -/
theorem upgradeScan_all_pass {podLister client tc} {l : List Nat} {s}
    (h : ∀ i ∈ l, passOk podLister client tc i) :
    upgradeScan podLister client tc l s = (s, none) := by
  induction l with
  | nil => rfl
  | cons i rest ih =>
    rw [upgradeScan_pass (h i (List.mem_cons_self i rest))]
    exact ih (fun j hj => h j (List.mem_cons_of_mem i hj))

/-- At an ordinal whose store record is absent, the scan sets the partition
to that ordinal and continues with the remaining (lower) ordinals. -/
theorem upgradeScan_absent {podLister client tc j s rest}
    (hj : getTiFlashStoreByOrdinal tc.name tc.stores j = none) :
    upgradeScan podLister client tc (j :: rest) s =
      upgradeScan podLister client tc rest (setUpgradePartition s j) := by
  simp only [upgradeScan, hj]

/-- At an ordinal whose pod carries a revision different from the target,
the scan sets the partition to that ordinal and stops with no error,
whatever ordinals remain below. -/
theorem upgradeScan_mismatch {podLister client tc j s rest store pod rev}
    (h1 : getTiFlashStoreByOrdinal tc.name tc.stores j = some store)
    (h3 : podLister (TiFlashPodName tc.name j) = some pod)
    (h4 : pod.revisionLabel = some rev)
    (h5 : rev ≠ tc.updateRevision) :
    upgradeScan podLister client tc (j :: rest) s = (setUpgradePartition s j, none) := by
  simp only [upgradeScan, h1, h3, h4, h5]
  simp [h5]

/-- Pod lister of the C5 example: ordinals 0 and 2 have ready pods on the
target revision, ordinal 1 has nothing. -/
def examplePodLister : String → Option TiFlashPod := fun n =>
  if n = "test-tiflash-0" ∨ n = "test-tiflash-2" then some ⟨some "v2", true⟩ else none

/-- TiFlash status client of the examples: every pod reports Running. -/
def exampleClient : String → Option StoreStatus := fun _ => some StoreStatus.Running

/-- Cluster of the C5 example: mid-upgrade (current revision v1, target v2),
store records for ordinals 0 and 2 only, both Up; the version tag is
unparsable so the liveness gate is skipped. -/
def exampleCluster : TidbCluster :=
  { name := "test", pdPhase := MemberPhase.Normal, tiflashPhase := MemberPhase.Normal,
    tiflashSynced := true, updateRevision := "v2", currentRevision := "v1",
    stores := [⟨"test-tiflash-0", TiKVState.Up⟩, ⟨"test-tiflash-2", TiKVState.Up⟩],
    tiflashVersion := "abc" }

/-- Old StatefulSet of the examples: three replicas, rolling update with
partition 3. -/
def exampleOldSet : StatefulSet :=
  { replicas := 3, template := "tpl", strategyOnDelete := false,
    rollingUpdate := some 3, lastApplied := some "tpl-old" }

/-- New StatefulSet of the examples: same template, partition 3. -/
def exampleNewSet : StatefulSet :=
  { replicas := 3, template := "tpl", strategyOnDelete := false,
    rollingUpdate := some 3, lastApplied := none }

/-- Pod lister in which every present pod is on the old revision v1. -/
def oldRevisionPodLister : String → Option TiFlashPod := fun n =>
  if n = "test-tiflash-0" ∨ n = "test-tiflash-2" then some ⟨some "v1", true⟩ else none

/-- A new StatefulSet whose template differs from the old one. -/
def changedTemplateNewSet : StatefulSet :=
  { replicas := 3, template := "tpl-changed", strategyOnDelete := false,
    rollingUpdate := some 3, lastApplied := none }

/-- Cluster in which all three ordinals have Up store records. -/
def fullCluster : TidbCluster :=
  { name := "test", pdPhase := MemberPhase.Normal, tiflashPhase := MemberPhase.Normal,
    tiflashSynced := true, updateRevision := "v2", currentRevision := "v1",
    stores := [⟨"test-tiflash-0", TiKVState.Up⟩, ⟨"test-tiflash-1", TiKVState.Up⟩,
      ⟨"test-tiflash-2", TiKVState.Up⟩],
    tiflashVersion := "abc" }

/-- Pod lister in which all three ordinals have ready pods on the target
revision v2. -/
def fullPodLister : String → Option TiFlashPod := fun n =>
  if n = "test-tiflash-0" ∨ n = "test-tiflash-1" ∨ n = "test-tiflash-2" then
    some ⟨some "v2", true⟩
  else none

end TiFlash

/-- C5: the Upgrade scan runs from the highest ordinal down: an ordinal with
a present store record whose pod revision differs from the target revision
sets the upgrade boundary there and stops the scan (whatever lies below); an
ordinal whose store record is absent sets the boundary there and continues
downward; concretely, with store 1 absent and ordinals 0 and 2 healthy on
the target revision, the boundary ends at 1 with no error. -/
theorem tiflash_upgrade_scan_boundary :
    (∀ (podLister : String → Option TiFlash.TiFlashPod)
       (client : String → Option TiFlash.StoreStatus)
       (tc : TiFlash.TidbCluster) (j : Nat) (rest : List Nat) (s : TiFlash.StatefulSet)
       (store : TiFlash.TiKVStore) (pod : TiFlash.TiFlashPod) (rev : String),
       TiFlash.getTiFlashStoreByOrdinal tc.name tc.stores j = some store →
       podLister (TiFlash.TiFlashPodName tc.name j) = some pod →
       pod.revisionLabel = some rev → rev ≠ tc.updateRevision →
       TiFlash.upgradeScan podLister client tc (j :: rest) s =
         (TiFlash.setUpgradePartition s j, none)) ∧
    (∀ (podLister : String → Option TiFlash.TiFlashPod)
       (client : String → Option TiFlash.StoreStatus)
       (tc : TiFlash.TidbCluster) (j : Nat) (rest : List Nat) (s : TiFlash.StatefulSet),
       TiFlash.getTiFlashStoreByOrdinal tc.name tc.stores j = none →
       TiFlash.upgradeScan podLister client tc (j :: rest) s =
         TiFlash.upgradeScan podLister client tc rest (TiFlash.setUpgradePartition s j)) ∧
    (TiFlash.Upgrade TiFlash.examplePodLister TiFlash.exampleClient TiFlash.exampleCluster
        TiFlash.exampleOldSet TiFlash.exampleNewSet).newSet.rollingUpdate = some 1 ∧
    (TiFlash.Upgrade TiFlash.examplePodLister TiFlash.exampleClient TiFlash.exampleCluster
        TiFlash.exampleOldSet TiFlash.exampleNewSet).err = none := by
  refine ⟨?_, ?_, by decide, by decide⟩
  · intro podLister client tc j rest s store pod rev h1 h3 h4 h5
    exact TiFlash.upgradeScan_mismatch h1 h3 h4 h5
  · intro podLister client tc j rest s hj
    exact TiFlash.upgradeScan_absent hj

/-- Witness for C5: the stop-at-mismatch part applied at a concrete input —
one ordinal whose pod is on the old revision, with a lower ordinal that
is never scanned. -/
theorem tiflash_upgrade_scan_boundary_witness :
    TiFlash.upgradeScan (fun n => if n = "test-tiflash-2" then some ⟨some "v1", true⟩ else none)
        TiFlash.exampleClient TiFlash.exampleCluster [2, 1, 0] TiFlash.exampleNewSet =
      (TiFlash.setUpgradePartition TiFlash.exampleNewSet 2, none) :=
  tiflash_upgrade_scan_boundary.1
    (fun n => if n = "test-tiflash-2" then some ⟨some "v1", true⟩ else none)
    TiFlash.exampleClient TiFlash.exampleCluster 2 [1, 0] TiFlash.exampleNewSet
    ⟨"test-tiflash-2", TiFlash.TiKVState.Up⟩ ⟨some "v1", true⟩ "v1"
    (by decide) (by decide) (by decide) (by decide)

/-- The scan-phase shape of `Upgrade`: under a synced status, a PD phase
other than Upgrade, no scaling, equal templates, differing revisions and an
intact rolling-update strategy, `Upgrade` copies the old partition and runs
the descending scan. -/
theorem Upgrade_scan_shape {podLister client} {tc : TiFlash.TidbCluster}
    {oldSet newSet : TiFlash.StatefulSet} {p : Nat}
    (hSync : tc.tiflashSynced = true)
    (hPD : tc.pdPhase ≠ TiFlash.MemberPhase.Upgrade)
    (hScale : TiFlash.TiFlashScaling tc = false)
    (hT : TiFlash.templateEqual newSet oldSet = true)
    (hRev : tc.updateRevision ≠ tc.currentRevision)
    (hStrat : oldSet.strategyOnDelete = false)
    (hRoll : oldSet.rollingUpdate = some p) :
    TiFlash.Upgrade podLister client tc oldSet newSet =
      ⟨{ tc with tiflashPhase := TiFlash.MemberPhase.Upgrade },
       (TiFlash.upgradeScan podLister client { tc with tiflashPhase := TiFlash.MemberPhase.Upgrade }
         (List.range oldSet.replicas).reverse (TiFlash.setUpgradePartition newSet p)).1,
       (TiFlash.upgradeScan podLister client { tc with tiflashPhase := TiFlash.MemberPhase.Upgrade }
         (List.range oldSet.replicas).reverse (TiFlash.setUpgradePartition newSet p)).2⟩ := by
  rw [TiFlash.Upgrade]
  rw [if_neg (by simp [hPD, hScale])]
  rw [if_neg (by simp [hSync])]
  simp only [hT, hRoll]
  rw [if_neg (by simp)]
  rw [if_neg (by exact hRev)]
  rw [if_neg (by simp [hStrat])]
  simp [hRoll]

/-- C10: whenever the TiFlash status is synced, the PD phase is not
Upgrading, and TiFlash is not scaling, `Upgrade` sets the TiFlash phase to
Upgrading before any further check — on every path, including the ones that
change nothing else. -/
theorem tiflash_upgrade_sets_phase (podLister : String → Option TiFlash.TiFlashPod)
    (client : String → Option TiFlash.StoreStatus) (tc : TiFlash.TidbCluster)
    (oldSet newSet : TiFlash.StatefulSet)
    (hSync : tc.tiflashSynced = true)
    (hPD : tc.pdPhase ≠ TiFlash.MemberPhase.Upgrade)
    (hScale : TiFlash.TiFlashScaling tc = false) :
    (TiFlash.Upgrade podLister client tc oldSet newSet).tc.tiflashPhase =
      TiFlash.MemberPhase.Upgrade := by
  rw [TiFlash.Upgrade]
  rw [if_neg (by simp [hPD, hScale])]
  rw [if_neg (by simp [hSync])]
  dsimp only
  split
  · rfl
  split
  · rfl
  split
  · rfl
  · rfl

/-- Witness for C10 at a concrete input. -/
theorem tiflash_upgrade_sets_phase_witness :
    (TiFlash.Upgrade TiFlash.examplePodLister TiFlash.exampleClient TiFlash.exampleCluster
        TiFlash.exampleOldSet TiFlash.exampleNewSet).tc.tiflashPhase =
      TiFlash.MemberPhase.Upgrade :=
  tiflash_upgrade_sets_phase TiFlash.examplePodLister TiFlash.exampleClient
    TiFlash.exampleCluster TiFlash.exampleOldSet TiFlash.exampleNewSet
    (by decide) (by decide) (by decide)

/-- C8 as stated is false on the code: a concrete call with the pod template
unchanged between the old and new descriptors (and a synced, non-upgrading,
non-scaling cluster) in which `Upgrade` returns no error yet moves the
upgrade boundary from 3 to 0 — the code treats an unchanged template as the
go-ahead to step the partition, not as a no-op. -/
theorem tiflash_upgrade_template_unchanged_not_noop :
    TiFlash.templateEqual TiFlash.exampleNewSet TiFlash.exampleOldSet = true ∧
    TiFlash.exampleCluster.tiflashSynced = true ∧
    TiFlash.exampleCluster.pdPhase ≠ TiFlash.MemberPhase.Upgrade ∧
    TiFlash.TiFlashScaling TiFlash.exampleCluster = false ∧
    (TiFlash.Upgrade TiFlash.oldRevisionPodLister TiFlash.exampleClient TiFlash.exampleCluster
        TiFlash.exampleOldSet TiFlash.exampleNewSet).err = none ∧
    (TiFlash.Upgrade TiFlash.oldRevisionPodLister TiFlash.exampleClient TiFlash.exampleCluster
        TiFlash.exampleOldSet TiFlash.exampleNewSet).newSet.rollingUpdate ≠
      TiFlash.exampleNewSet.rollingUpdate := by
  decide

/-- C8 amended: under a synced status with the PD phase not Upgrading and
TiFlash not scaling, if the pod template CHANGED between the old and new
descriptors, or the current revision already equals the target revision,
`Upgrade` is a no-op: it returns no error and leaves the new descriptor —
in particular the upgrade boundary — untouched. -/
theorem tiflash_upgrade_template_changed_or_revisions_match_noop
    (podLister : String → Option TiFlash.TiFlashPod)
    (client : String → Option TiFlash.StoreStatus) (tc : TiFlash.TidbCluster)
    (oldSet newSet : TiFlash.StatefulSet)
    (hSync : tc.tiflashSynced = true)
    (hPD : tc.pdPhase ≠ TiFlash.MemberPhase.Upgrade)
    (hScale : TiFlash.TiFlashScaling tc = false)
    (h : TiFlash.templateEqual newSet oldSet = false ∨
      tc.updateRevision = tc.currentRevision) :
    (TiFlash.Upgrade podLister client tc oldSet newSet).err = none ∧
    (TiFlash.Upgrade podLister client tc oldSet newSet).newSet = newSet := by
  rw [TiFlash.Upgrade]
  rw [if_neg (by simp [hPD, hScale])]
  rw [if_neg (by simp [hSync])]
  dsimp only
  rcases h with h | h
  · rw [if_pos h]
    exact ⟨rfl, rfl⟩
  · by_cases hT : TiFlash.templateEqual newSet oldSet = false
    · rw [if_pos hT]
      exact ⟨rfl, rfl⟩
    · rw [if_neg hT, if_pos h]
      exact ⟨rfl, rfl⟩

/-- Witness for the amended C8 at a concrete input (differing templates). -/
theorem tiflash_upgrade_template_changed_noop_witness :
    (TiFlash.Upgrade TiFlash.examplePodLister TiFlash.exampleClient TiFlash.exampleCluster
        TiFlash.exampleOldSet TiFlash.changedTemplateNewSet).err = none ∧
    (TiFlash.Upgrade TiFlash.examplePodLister TiFlash.exampleClient TiFlash.exampleCluster
        TiFlash.exampleOldSet TiFlash.changedTemplateNewSet).newSet =
      TiFlash.changedTemplateNewSet :=
  tiflash_upgrade_template_changed_or_revisions_match_noop TiFlash.examplePodLister
    TiFlash.exampleClient TiFlash.exampleCluster TiFlash.exampleOldSet
    TiFlash.changedTemplateNewSet (by decide) (by decide) (by decide) (Or.inl (by decide))

/-- C9 as stated is false on the code: a concrete call in which every
scanned ordinal carries the target revision and passes every check, and
`Upgrade` completes without error — but the upgrade boundary ends at the old
descriptor's partition 3 (copied verbatim before the scan), not at the
minimum ordinal 0. -/
theorem tiflash_upgrade_complete_boundary_not_minimum :
    (∀ i ∈ List.range TiFlash.exampleOldSet.replicas,
      TiFlash.passOk TiFlash.fullPodLister TiFlash.exampleClient TiFlash.fullCluster i) ∧
    (TiFlash.Upgrade TiFlash.fullPodLister TiFlash.exampleClient TiFlash.fullCluster
        TiFlash.exampleOldSet TiFlash.exampleNewSet).err = none ∧
    (TiFlash.Upgrade TiFlash.fullPodLister TiFlash.exampleClient TiFlash.fullCluster
        TiFlash.exampleOldSet TiFlash.exampleNewSet).newSet.rollingUpdate = some 3 ∧
    (TiFlash.Upgrade TiFlash.fullPodLister TiFlash.exampleClient TiFlash.fullCluster
        TiFlash.exampleOldSet TiFlash.exampleNewSet).newSet.rollingUpdate ≠ some 0 := by
  refine ⟨?_, by decide, by decide, by decide⟩
  intro i hi
  simp only [TiFlash.exampleOldSet, List.mem_range] at hi
  interval_cases i
  · exact ⟨⟨"test-tiflash-0", TiFlash.TiKVState.Up⟩, ⟨some "v2", true⟩, by decide⟩
  · exact ⟨⟨"test-tiflash-1", TiFlash.TiKVState.Up⟩, ⟨some "v2", true⟩, by decide⟩
  · exact ⟨⟨"test-tiflash-2", TiFlash.TiKVState.Up⟩, ⟨some "v2", true⟩, by decide⟩

/-- C9 amended: when every scanned pod ordinal already carries the target
revision and passes its readiness, store-state and liveness checks, the
Upgrade operation completes without error and leaves the upgrade boundary at
the value copied verbatim from the old descriptor's partition (unchanged by
the scan), rather than at the minimum ordinal. -/
theorem tiflash_upgrade_all_on_target_keeps_old_boundary
    (podLister : String → Option TiFlash.TiFlashPod)
    (client : String → Option TiFlash.StoreStatus) (tc : TiFlash.TidbCluster)
    (oldSet newSet : TiFlash.StatefulSet) (p : Nat)
    (hSync : tc.tiflashSynced = true)
    (hPD : tc.pdPhase ≠ TiFlash.MemberPhase.Upgrade)
    (hScale : TiFlash.TiFlashScaling tc = false)
    (hT : TiFlash.templateEqual newSet oldSet = true)
    (hRev : tc.updateRevision ≠ tc.currentRevision)
    (hStrat : oldSet.strategyOnDelete = false)
    (hRoll : oldSet.rollingUpdate = some p)
    (hAll : ∀ i ∈ List.range oldSet.replicas,
      TiFlash.passOk podLister client tc i) :
    (TiFlash.Upgrade podLister client tc oldSet newSet).err = none ∧
    (TiFlash.Upgrade podLister client tc oldSet newSet).newSet.rollingUpdate = some p := by
  rw [Upgrade_scan_shape hSync hPD hScale hT hRev hStrat hRoll]
  have hscan :
      TiFlash.upgradeScan podLister client
          { tc with tiflashPhase := TiFlash.MemberPhase.Upgrade }
          (List.range oldSet.replicas).reverse (TiFlash.setUpgradePartition newSet p) =
        (TiFlash.setUpgradePartition newSet p, none) :=
    TiFlash.upgradeScan_all_pass (fun i hi => hAll i (List.mem_reverse.mp hi))
  rw [hscan]
  exact ⟨rfl, rfl⟩

/-- Witness for the amended C9 at a concrete input. -/
theorem tiflash_upgrade_all_on_target_keeps_old_boundary_witness :
    (TiFlash.Upgrade TiFlash.fullPodLister TiFlash.exampleClient TiFlash.fullCluster
        TiFlash.exampleOldSet TiFlash.exampleNewSet).err = none ∧
    (TiFlash.Upgrade TiFlash.fullPodLister TiFlash.exampleClient TiFlash.fullCluster
        TiFlash.exampleOldSet TiFlash.exampleNewSet).newSet.rollingUpdate = some 3 := by
  refine tiflash_upgrade_all_on_target_keeps_old_boundary TiFlash.fullPodLister
    TiFlash.exampleClient TiFlash.fullCluster TiFlash.exampleOldSet TiFlash.exampleNewSet 3
    (by decide) (by decide) (by decide) (by decide) (by decide) (by decide) (by decide) ?_
  intro i hi
  simp only [TiFlash.exampleOldSet, List.mem_range] at hi
  interval_cases i
  · exact ⟨⟨"test-tiflash-0", TiFlash.TiKVState.Up⟩, ⟨some "v2", true⟩, by decide⟩
  · exact ⟨⟨"test-tiflash-1", TiFlash.TiKVState.Up⟩, ⟨some "v2", true⟩, by decide⟩
  · exact ⟨⟨"test-tiflash-2", TiFlash.TiKVState.Up⟩, ⟨some "v2", true⟩, by decide⟩

/-- C4: for any cluster status with failure members recorded and any desired
replica count, `Recover` empties the failure-member mapping and leaves the
desired replica count exactly as specified, whether it is below, equal to,
or above the failure count. -/
theorem pd_recover_clears_failures_keeps_replicas (tc : PD.TidbCluster) (K R : Nat)
    (hK : tc.status.failureMembers.length = K) (hPos : 0 < K)
    (hR : tc.replicas = R) :
    (PD.Recover tc).status.failureMembers = [] ∧ (PD.Recover tc).replicas = R := by
  exact ⟨rfl, hR⟩

/-- Witness for C4: two failure members, desired replicas decreased to 1. -/
theorem pd_recover_clears_failures_keeps_replicas_witness :
    (PD.Recover
        ⟨1, { synced := true, members := [], peerMembers := [],
              failureMembers := [⟨"test-pd-0", "0", [], false, 0⟩,
                ⟨"test-pd-1", "1", [], false, 0⟩] }⟩).status.failureMembers = [] ∧
    (PD.Recover
        ⟨1, { synced := true, members := [], peerMembers := [],
              failureMembers := [⟨"test-pd-0", "0", [], false, 0⟩,
                ⟨"test-pd-1", "1", [], false, 0⟩] }⟩).replicas = 1 :=
  pd_recover_clears_failures_keeps_replicas
    ⟨1, { synced := true, members := [], peerMembers := [],
          failureMembers := [⟨"test-pd-0", "0", [], false, 0⟩,
            ⟨"test-pd-1", "1", [], false, 0⟩] }⟩
    2 1 (by decide) (by decide) (by decide)

/-- C6: if a failure member's stored member id does not parse as a valid
non-negative integer, the reap attempt returns the hard invalid-id error, no
deregistration or deletion call is attempted, and nothing changes: the
failure record (in particular its deleted flag) and the external state are
untouched. -/
theorem pd_reap_invalid_member_id_hard_error (env : PD.ReapEnv) (fm : PD.PDFailureMember)
    (h : PD.parseNonNegInt fm.memberID = none) :
    (PD.tryToDeleteAFailureMember env fm).err = some PD.ReapErr.invalidMemberID ∧
    (PD.tryToDeleteAFailureMember env fm).fm = fm ∧
    (PD.tryToDeleteAFailureMember env fm).env = env ∧
    (PD.tryToDeleteAFailureMember env fm).actions = [] := by
  simp [PD.tryToDeleteAFailureMember, h]

/-- Witness for C6: the member id "wrong-id" of the test case. -/
theorem pd_reap_invalid_member_id_hard_error_witness :
    (PD.tryToDeleteAFailureMember
        ⟨[⟨"test-pd-1", false⟩], [], true, true, []⟩
        ⟨"test-pd-1", "wrong-id", ["u1"], false, 0⟩).err =
      some PD.ReapErr.invalidMemberID ∧
    (PD.tryToDeleteAFailureMember
        ⟨[⟨"test-pd-1", false⟩], [], true, true, []⟩
        ⟨"test-pd-1", "wrong-id", ["u1"], false, 0⟩).fm =
      ⟨"test-pd-1", "wrong-id", ["u1"], false, 0⟩ ∧
    (PD.tryToDeleteAFailureMember
        ⟨[⟨"test-pd-1", false⟩], [], true, true, []⟩
        ⟨"test-pd-1", "wrong-id", ["u1"], false, 0⟩).env =
      ⟨[⟨"test-pd-1", false⟩], [], true, true, []⟩ ∧
    (PD.tryToDeleteAFailureMember
        ⟨[⟨"test-pd-1", false⟩], [], true, true, []⟩
        ⟨"test-pd-1", "wrong-id", ["u1"], false, 0⟩).actions = [] :=
  pd_reap_invalid_member_id_hard_error
    ⟨[⟨"test-pd-1", false⟩], [], true, true, []⟩
    ⟨"test-pd-1", "wrong-id", ["u1"], false, 0⟩ (by decide)

/-- Unfolding equation: the failure members after a marking pass are the old
ones plus a record for each eligible member. -/
theorem PD.markFailures_failureMembers (cfg : PD.FailoverConfig)
    (pc : String → Option (List String)) (st : PD.PDStatus) :
    (PD.markFailures cfg pc st).1.failureMembers =
      st.failureMembers ++
        (st.members.filter (PD.eligibleToMark cfg st)).map (PD.mkFailureMember cfg pc) := rfl

/-- Unfolding equation: the events of a marking pass. -/
theorem PD.markFailures_events (cfg : PD.FailoverConfig)
    (pc : String → Option (List String)) (st : PD.PDStatus) :
    (PD.markFailures cfg pc st).2 =
      (st.members.filter (fun m => !m.health)).map (fun m => PD.FEvent.memberUnhealthy m.name m.id)
        ++ (st.peerMembers.filter (fun m => !m.health)).map
            (fun m => PD.FEvent.peerMemberUnhealthy m.name m.id)
        ++ (st.members.filter (PD.eligibleToMark cfg st)).map
            (fun m => PD.FEvent.markedFailure m.name) := rfl

/-- On a synced status, `Failover` marks and returns no error. -/
theorem PD.Failover_synced (cfg : PD.FailoverConfig) (pc : String → Option (List String))
    (tc : PD.TidbCluster) (hSync : tc.status.synced = true) :
    PD.Failover cfg pc tc =
      ({ tc with status := (PD.markFailures cfg pc tc.status).1 },
        (PD.markFailures cfg pc tc.status).2, none) := by
  simp [PD.Failover, hSync]

/-- Members of a list with no duplicate names that share a name are equal. -/
theorem PD.name_inj {l : List PD.PDMember} (h : (l.map PD.PDMember.name).Nodup)
    {a b : PD.PDMember} (ha : a ∈ l) (hb : b ∈ l) (hn : a.name = b.name) : a = b :=
  List.inj_on_of_nodup_map h ha hb hn

/-- C1: when removing an unhealthy member X would leave the healthy voters
(excluding X, over the by-id deduplicated union of members and peer members)
at or below half of the total voters, a Failover pass returns no error, does
not add X to the failure members (any record under X's pod name was already
there), and emits no marked-as-failure event for X — only diagnostics. -/
theorem pd_failover_quorum_rejection_defers (cfg : PD.FailoverConfig)
    (podClaims : String → Option (List String)) (tc : PD.TidbCluster) (x : PD.PDMember)
    (hSync : tc.status.synced = true)
    (hNodup : (tc.status.members.map PD.PDMember.name).Nodup)
    (hx : x ∈ tc.status.members)
    (hHealth : x.health = false)
    (hq : 2 * PD.healthyVotersExcluding tc.status x.id ≤ PD.totalVoters tc.status) :
    (PD.Failover cfg podClaims tc).2.2 = none ∧
    (∀ fm ∈ (PD.Failover cfg podClaims tc).1.status.failureMembers,
      fm.podName = x.name → fm ∈ tc.status.failureMembers) ∧
    PD.FEvent.markedFailure x.name ∉ (PD.Failover cfg podClaims tc).2.1 := by
  have hqb : PD.quorumGuardApproves tc.status x.id = false :=
    decide_eq_false (Nat.not_lt.mpr hq)
  have helig : ∀ m ∈ tc.status.members, m.name = x.name →
      PD.eligibleToMark cfg tc.status m = false := by
    intro m hm hname
    have hmx : m = x := PD.name_inj hNodup hm hx hname
    subst hmx
    simp [PD.eligibleToMark, hqb]
  rw [PD.Failover_synced cfg podClaims tc hSync]
  refine ⟨rfl, ?_, ?_⟩
  · intro fm hfm hname
    rw [PD.markFailures_failureMembers] at hfm
    rcases List.mem_append.mp hfm with hin | hin
    · exact hin
    · obtain ⟨m, hmem, rfl⟩ := List.mem_map.mp hin
      obtain ⟨hmm, hel⟩ := List.mem_filter.mp hmem
      rw [helig m hmm hname] at hel
      exact absurd hel (by simp)
  · intro hev
    rw [PD.markFailures_events] at hev
    rcases List.mem_append.mp hev with hin | hin
    · rcases List.mem_append.mp hin with hin2 | hin2
      · obtain ⟨m, _, hcon⟩ := List.mem_map.mp hin2
        exact PD.FEvent.noConfusion hcon
      · obtain ⟨m, _, hcon⟩ := List.mem_map.mp hin2
        exact PD.FEvent.noConfusion hcon
    · obtain ⟨m, hmem, hcon⟩ := List.mem_map.mp hin
      obtain ⟨hmm, hel⟩ := List.mem_filter.mp hmem
      have hname : m.name = x.name := by injection hcon
      rw [helig m hmm hname] at hel
      exact absurd hel (by simp)

/-- Cluster of the quorum-rejection witness: members 0 and 1 unhealthy past
the deadline, member 2 healthy, no peer members, no failure members yet. -/
def PD.quorumExampleCluster : PD.TidbCluster :=
  ⟨3, { synced := true,
        members := [⟨"test-pd-0", "0", false, 400⟩,
          ⟨"test-pd-1", "12891273174085095651", false, 400⟩, ⟨"test-pd-2", "2", true, 0⟩],
        peerMembers := [], failureMembers := [] }⟩

/-- Witness for C1: marking member 0 with only one of three voters healthy
is rejected and deferred. -/
theorem pd_failover_quorum_rejection_defers_witness :
    (PD.Failover ⟨1000, 300, 3⟩ (fun _ => none) PD.quorumExampleCluster).2.2 = none ∧
    (∀ fm ∈ (PD.Failover ⟨1000, 300, 3⟩ (fun _ => none)
        PD.quorumExampleCluster).1.status.failureMembers,
      fm.podName = "test-pd-0" → fm ∈ PD.quorumExampleCluster.status.failureMembers) ∧
    PD.FEvent.markedFailure "test-pd-0" ∉
      (PD.Failover ⟨1000, 300, 3⟩ (fun _ => none) PD.quorumExampleCluster).2.1 :=
  pd_failover_quorum_rejection_defers ⟨1000, 300, 3⟩ (fun _ => none) PD.quorumExampleCluster
    ⟨"test-pd-0", "0", false, 400⟩ (by decide) (by decide) (by decide) (by decide) (by decide)

/-- C2: on a synced status, for a member not already recorded as failed, a
Failover pass adds a failure record under that member's pod name exactly
when the member is unhealthy for longer than the deadline (a zero-value
transition timestamp counting as just observed), QuorumGuard approves the
removal, and the current failure-member count is below the failover cap; any
record added under that name carries deleted = false and the storage-claim
identity set currently attached to the member's pod. -/
theorem pd_failover_marks_exactly_when_eligible (cfg : PD.FailoverConfig)
    (podClaims : String → Option (List String)) (tc : PD.TidbCluster) (m : PD.PDMember)
    (hSync : tc.status.synced = true)
    (hNodup : (tc.status.members.map PD.PDMember.name).Nodup)
    (hm : m ∈ tc.status.members)
    (hNot : PD.alreadyFailure tc.status m.name = false) :
    (PD.Failover cfg podClaims tc).2.2 = none ∧
    ((∃ fm ∈ (PD.Failover cfg podClaims tc).1.status.failureMembers, fm.podName = m.name) ↔
      (m.health = false ∧
       cfg.deadline <
         cfg.now - (if m.lastTransitionTime = 0 then cfg.now else m.lastTransitionTime) ∧
       PD.quorumGuardApproves tc.status m.id = true ∧
       tc.status.failureMembers.length < cfg.maxFailoverCount)) ∧
    (∀ fm ∈ (PD.Failover cfg podClaims tc).1.status.failureMembers, fm.podName = m.name →
      fm.memberDeleted = false ∧ fm.pvcUIDSet = (podClaims m.name).getD []) := by
  have hpre : ∀ fm ∈ tc.status.failureMembers, ¬fm.podName = m.name := by
    intro fm hfm
    simp only [PD.alreadyFailure, List.any_eq_false] at hNot
    simpa using hNot fm hfm
  have helig_iff : PD.eligibleToMark cfg tc.status m = true ↔
      (m.health = false ∧
       cfg.deadline <
         cfg.now - (if m.lastTransitionTime = 0 then cfg.now else m.lastTransitionTime) ∧
       PD.quorumGuardApproves tc.status m.id = true ∧
       tc.status.failureMembers.length < cfg.maxFailoverCount) := by
    simp only [PD.eligibleToMark, PD.isPastDeadline, hNot, Bool.and_eq_true, Bool.not_eq_true',
      Bool.not_false, and_true, decide_eq_true_eq, and_assoc]
  rw [PD.Failover_synced cfg podClaims tc hSync]
  refine ⟨rfl, ?_, ?_⟩
  · constructor
    · rintro ⟨fm, hfm, hname⟩
      rw [PD.markFailures_failureMembers] at hfm
      rcases List.mem_append.mp hfm with hin | hin
      · exact absurd hname (hpre fm hin)
      · obtain ⟨m2, hmem, rfl⟩ := List.mem_map.mp hin
        obtain ⟨hmm, hel⟩ := List.mem_filter.mp hmem
        have hm2 : m2 = m := PD.name_inj hNodup hmm hm hname
        subst hm2
        exact helig_iff.mp hel
    · intro hcond
      refine ⟨PD.mkFailureMember cfg podClaims m, ?_, rfl⟩
      rw [PD.markFailures_failureMembers]
      refine List.mem_append.mpr (Or.inr ?_)
      exact List.mem_map.mpr ⟨m, List.mem_filter.mpr ⟨hm, helig_iff.mpr hcond⟩, rfl⟩
  · intro fm hfm hname
    rw [PD.markFailures_failureMembers] at hfm
    rcases List.mem_append.mp hfm with hin | hin
    · exact absurd hname (hpre fm hin)
    · obtain ⟨m2, hmem, rfl⟩ := List.mem_map.mp hin
      obtain ⟨hmm, _⟩ := List.mem_filter.mp hmem
      have hm2 : m2 = m := PD.name_inj hNodup hmm hm hname
      subst hm2
      exact ⟨rfl, rfl⟩

/-- Cluster of the marking witnesses: member 1 unhealthy past the deadline,
members 0 and 2 healthy, no failure members yet. -/
def PD.markExampleCluster : PD.TidbCluster :=
  ⟨3, { synced := true,
        members := [⟨"test-pd-0", "0", true, 0⟩,
          ⟨"test-pd-1", "12891273174085095651", false, 400⟩, ⟨"test-pd-2", "2", true, 0⟩],
        peerMembers := [], failureMembers := [] }⟩

/-- Storage claims of the marking witnesses: pod test-pd-1 carries two
claims. -/
def PD.markExampleClaims : String → Option (List String) := fun n =>
  if n = "test-pd-1" then some ["pvc-1-uid-1", "pvc-1-uid-2"] else none

/-- Witness for C2: member 1, unhealthy since 400 with now = 1000 and
deadline 300, is marked with its two attached claims. -/
theorem pd_failover_marks_exactly_when_eligible_witness :
    (PD.Failover ⟨1000, 300, 3⟩ PD.markExampleClaims PD.markExampleCluster).2.2 = none ∧
    ((∃ fm ∈ (PD.Failover ⟨1000, 300, 3⟩ PD.markExampleClaims
        PD.markExampleCluster).1.status.failureMembers, fm.podName = "test-pd-1") ↔
      (false = false ∧
       (300 : Nat) < 1000 - (if (400 : Nat) = 0 then 1000 else 400) ∧
       PD.quorumGuardApproves PD.markExampleCluster.status "12891273174085095651" = true ∧
       PD.markExampleCluster.status.failureMembers.length < 3)) ∧
    (∀ fm ∈ (PD.Failover ⟨1000, 300, 3⟩ PD.markExampleClaims
        PD.markExampleCluster).1.status.failureMembers, fm.podName = "test-pd-1" →
      fm.memberDeleted = false ∧
      fm.pvcUIDSet = (PD.markExampleClaims "test-pd-1").getD []) :=
  pd_failover_marks_exactly_when_eligible ⟨1000, 300, 3⟩ PD.markExampleClaims
    PD.markExampleCluster ⟨"test-pd-1", "12891273174085095651", false, 400⟩
    (by decide) (by decide) (by decide) (by decide)

/-- C7: when a member becomes eligible for marking but the storage claims of
its pod cannot be located, the Failover pass still succeeds without error
and records the failure member with an empty storage-claim identity set. -/
theorem pd_mark_missing_claims_empty_set (cfg : PD.FailoverConfig)
    (podClaims : String → Option (List String)) (tc : PD.TidbCluster) (m : PD.PDMember)
    (hSync : tc.status.synced = true)
    (hm : m ∈ tc.status.members)
    (hNot : PD.alreadyFailure tc.status m.name = false)
    (hHealth : m.health = false)
    (hDead : cfg.deadline <
      cfg.now - (if m.lastTransitionTime = 0 then cfg.now else m.lastTransitionTime))
    (hQ : PD.quorumGuardApproves tc.status m.id = true)
    (hCap : tc.status.failureMembers.length < cfg.maxFailoverCount)
    (hPC : podClaims m.name = none) :
    (PD.Failover cfg podClaims tc).2.2 = none ∧
    ∃ fm ∈ (PD.Failover cfg podClaims tc).1.status.failureMembers,
      fm.podName = m.name ∧ fm.memberDeleted = false ∧ fm.pvcUIDSet = [] := by
  have helig : PD.eligibleToMark cfg tc.status m = true := by
    simp [PD.eligibleToMark, PD.isPastDeadline, hNot, hHealth, hDead, hQ, hCap]
  rw [PD.Failover_synced cfg podClaims tc hSync]
  refine ⟨rfl, PD.mkFailureMember cfg podClaims m, ?_, rfl, rfl, ?_⟩
  · rw [PD.markFailures_failureMembers]
    refine List.mem_append.mpr (Or.inr ?_)
    exact List.mem_map.mpr ⟨m, List.mem_filter.mpr ⟨hm, helig⟩, rfl⟩
  · simp [PD.mkFailureMember, hPC]

/-- Witness for C7: same scenario as the C2 witness, but the claim lookup
finds nothing; the recorded claim set is empty. -/
theorem pd_mark_missing_claims_empty_set_witness :
    (PD.Failover ⟨1000, 300, 3⟩ (fun _ => none) PD.markExampleCluster).2.2 = none ∧
    ∃ fm ∈ (PD.Failover ⟨1000, 300, 3⟩ (fun _ => none)
        PD.markExampleCluster).1.status.failureMembers,
      fm.podName = "test-pd-1" ∧ fm.memberDeleted = false ∧ fm.pvcUIDSet = [] :=
  pd_mark_missing_claims_empty_set ⟨1000, 300, 3⟩ (fun _ => none) PD.markExampleCluster
    ⟨"test-pd-1", "12891273174085095651", false, 400⟩
    (by decide) (by decide) (by decide) (by decide) (by decide) (by decide) (by decide) rfl

/-- Whether a reap action is a pod deletion. -/
def PD.isDeletePod : PD.ReapAction → Bool
  | PD.ReapAction.deletePod _ => true
  | _ => false

/-- Claim deletion only ever attempts claim deletions. -/
theorem PD.deleteClaims_no_deletePod (env : PD.ReapEnv) (l : List PD.Claim) :
    ∀ a ∈ (PD.deleteClaims env l).2.1, PD.isDeletePod a = false := by
  induction l generalizing env with
  | nil => intro a ha; simp [PD.deleteClaims] at ha
  | cons c rest ih =>
    intro a ha
    by_cases hc : env.delClaimFails.contains c.name
    · simp only [PD.deleteClaims, hc, if_pos] at ha
      simp at ha
      subst ha
      rfl
    · simp only [PD.deleteClaims, hc] at ha
      simp at ha
      rcases ha with ha | ha
      · subst ha; rfl
      · exact ih _ a ha

/-- The claim phase returns either full success with the deleted flag
flipped, or an error with the failure record unchanged; its actions extend
the given ones with claim deletions only. -/
theorem PD.reapClaims_cases (env : PD.ReapEnv) (acts : List PD.ReapAction)
    (fm : PD.PDFailureMember) :
    (((PD.reapClaims env acts fm).err = none ∧
        (PD.reapClaims env acts fm).fm = { fm with memberDeleted := true }) ∨
      ((PD.reapClaims env acts fm).err ≠ none ∧ (PD.reapClaims env acts fm).fm = fm)) ∧
    (∀ a ∈ (PD.reapClaims env acts fm).actions,
      a ∈ acts ∨ PD.isDeletePod a = false) := by
  cases h : (PD.deleteClaims env (PD.claimsToDelete env fm)).2.2 with
  | none =>
    refine ⟨Or.inl ⟨by simp [PD.reapClaims, h], by simp [PD.reapClaims, h]⟩, ?_⟩
    intro a ha
    simp only [PD.reapClaims, h] at ha
    rcases List.mem_append.mp ha with ha | ha
    · exact Or.inl ha
    · exact Or.inr (PD.deleteClaims_no_deletePod env _ a ha)
  | some e =>
    refine ⟨Or.inr ⟨by simp [PD.reapClaims, h], by simp [PD.reapClaims, h]⟩, ?_⟩
    intro a ha
    simp only [PD.reapClaims, h] at ha
    rcases List.mem_append.mp ha with ha | ha
    · exact Or.inl ha
    · exact Or.inr (PD.deleteClaims_no_deletePod env _ a ha)

/-- A reap pass returns either full success with the deleted flag flipped,
or an error with the failure record unchanged. -/
theorem PD.reap_fm_cases (env : PD.ReapEnv) (fm : PD.PDFailureMember) :
    ((PD.tryToDeleteAFailureMember env fm).err = none ∧
      (PD.tryToDeleteAFailureMember env fm).fm = { fm with memberDeleted := true }) ∨
    ((PD.tryToDeleteAFailureMember env fm).err ≠ none ∧
      (PD.tryToDeleteAFailureMember env fm).fm = fm) := by
  cases hp : PD.parseNonNegInt fm.memberID with
  | none => right; simp [PD.tryToDeleteAFailureMember, hp]
  | some memberId =>
    cases hdm : env.delMemberOk with
    | false => right; simp [PD.tryToDeleteAFailureMember, hp, hdm]
    | true =>
      simp only [PD.tryToDeleteAFailureMember, hp, hdm]
      rw [if_neg (by simp)]
      cases hf : env.pods.find? (fun p => decide (p.name = fm.podName)) with
      | none => exact (PD.reapClaims_cases env _ fm).1
      | some pod =>
        cases hmd : pod.markedForDeletion with
        | true =>
          simp only [hmd]
          rw [if_pos trivial]
          exact (PD.reapClaims_cases env _ fm).1
        | false =>
          simp only [hmd]
          rw [if_neg (by simp)]
          cases hdp : env.delPodOk with
          | false => right; simp [hdp]
          | true =>
            rw [if_neg (by simp [hdp])]
            exact (PD.reapClaims_cases _ _ fm).1

/-- When the member's pod is already gone from the pod directory or already
marked for deletion, a reap pass never attempts a pod deletion. -/
theorem PD.reap_no_deletePod (env : PD.ReapEnv) (fm : PD.PDFailureMember)
    (hpod : ∀ pod ∈ env.pods.find? (fun p => p.name = fm.podName),
      pod.markedForDeletion = true) :
    ∀ a ∈ (PD.tryToDeleteAFailureMember env fm).actions, PD.isDeletePod a = false := by
  cases hp : PD.parseNonNegInt fm.memberID with
  | none =>
    intro a ha
    simp [PD.tryToDeleteAFailureMember, hp] at ha
  | some memberId =>
    cases hdm : env.delMemberOk with
    | false =>
      intro a ha
      simp [PD.tryToDeleteAFailureMember, hp, hdm] at ha
      subst ha
      rfl
    | true =>
      have hclaims : ∀ a ∈ (PD.reapClaims env [PD.ReapAction.deregisterMember memberId] fm).actions,
          PD.isDeletePod a = false := by
        intro a ha
        rcases (PD.reapClaims_cases env [PD.ReapAction.deregisterMember memberId] fm).2 a ha with
          hin | hfalse
        · simp at hin
          subst hin
          rfl
        · exact hfalse
      simp only [PD.tryToDeleteAFailureMember, hp, hdm]
      rw [if_neg (by simp)]
      cases hf : env.pods.find? (fun p => decide (p.name = fm.podName)) with
      | none => exact hclaims
      | some pod =>
        have hmd : pod.markedForDeletion = true := hpod pod (by simp [hf])
        simp only [hmd]
        rw [if_pos trivial]
        exact hclaims

/-- Failure record of the reap scenario: two recorded claims. -/
def PD.reapExampleMember : PD.PDFailureMember :=
  ⟨"test-pd-1", "12891273174085095651", ["pvc-1-uid-1", "pvc-1-uid-2"], false, 5⟩

/-- External state of the reap scenario: the pod is present and unmarked,
its two claims exist, deregistration and pod deletion succeed, but deleting
claim pvc-1 fails. -/
def PD.reapExampleEnv : PD.ReapEnv :=
  { pods := [⟨"test-pd-1", false⟩],
    claims := [⟨"pvc-1", "pvc-1-uid-1", "test-pd-1", false⟩,
      ⟨"pvc-2", "pvc-1-uid-2", "test-pd-1", false⟩],
    delMemberOk := true, delPodOk := true, delClaimFails := ["pvc-1"] }

/-- C3: a reap pass flips the deleted flag to true exactly on full success —
any error leaves the failure record untouched; when the member's pod is
already gone or already marked for deletion that step is treated as done and
no pod deletion is attempted; concretely, when claim deletion fails after
the pod was deleted, the deleted flag stays false and the retried pass
succeeds without attempting to delete the already-gone pod. -/
theorem pd_reap_deleted_flag_and_no_pod_redelete :
    (∀ (env : PD.ReapEnv) (fm : PD.PDFailureMember),
      (PD.tryToDeleteAFailureMember env fm).err ≠ none →
      (PD.tryToDeleteAFailureMember env fm).fm = fm) ∧
    (∀ (env : PD.ReapEnv) (fm : PD.PDFailureMember),
      (PD.tryToDeleteAFailureMember env fm).err = none →
      (PD.tryToDeleteAFailureMember env fm).fm = { fm with memberDeleted := true }) ∧
    (∀ (env : PD.ReapEnv) (fm : PD.PDFailureMember),
      (∀ pod ∈ env.pods.find? (fun p => p.name = fm.podName),
        pod.markedForDeletion = true) →
      ∀ a ∈ (PD.tryToDeleteAFailureMember env fm).actions, PD.isDeletePod a = false) ∧
    ((PD.tryToDeleteAFailureMember PD.reapExampleEnv PD.reapExampleMember).err =
        some (PD.ReapErr.deleteClaimFailed "pvc-1") ∧
      (PD.tryToDeleteAFailureMember PD.reapExampleEnv PD.reapExampleMember).fm =
        PD.reapExampleMember ∧
      (PD.tryToDeleteAFailureMember PD.reapExampleEnv PD.reapExampleMember).env.pods = [] ∧
      (PD.tryToDeleteAFailureMember
          { (PD.tryToDeleteAFailureMember PD.reapExampleEnv PD.reapExampleMember).env with
              delClaimFails := [] } PD.reapExampleMember).err = none ∧
      (PD.tryToDeleteAFailureMember
          { (PD.tryToDeleteAFailureMember PD.reapExampleEnv PD.reapExampleMember).env with
              delClaimFails := [] } PD.reapExampleMember).fm.memberDeleted = true ∧
      ∀ a ∈ (PD.tryToDeleteAFailureMember
          { (PD.tryToDeleteAFailureMember PD.reapExampleEnv PD.reapExampleMember).env with
              delClaimFails := [] } PD.reapExampleMember).actions,
        PD.isDeletePod a = false) := by
  refine ⟨?_, ?_, PD.reap_no_deletePod, by decide⟩
  · intro env fm h
    rcases PD.reap_fm_cases env fm with ⟨he, _⟩ | ⟨_, hfm⟩
    · exact absurd he h
    · exact hfm
  · intro env fm h
    rcases PD.reap_fm_cases env fm with ⟨_, hfm⟩ | ⟨he, _⟩
    · exact hfm
    · exact absurd h he

/-- Witness for C3: with the pod directory empty, a retried reap pass
attempts no pod deletion. -/
theorem pd_reap_deleted_flag_and_no_pod_redelete_witness :
    ∀ a ∈ (PD.tryToDeleteAFailureMember { PD.reapExampleEnv with pods := [] }
        PD.reapExampleMember).actions, PD.isDeletePod a = false :=
  pd_reap_deleted_flag_and_no_pod_redelete.2.2.1
    { PD.reapExampleEnv with pods := [] } PD.reapExampleMember (by simp)
